import Mathlib

/-!
Verification development for the SalesFlowAI 2.0 RAG pipeline.

The definitions below are a shallow embedding of the TypeScript sources:
`src/lib/rag/embedding-service.ts`, `src/lib/rag/generation-service.ts`,
`src/lib/rag/rag-manager.ts`, the `DocumentProcessor` and the
`VectorDatabase` service.  JavaScript numbers are modelled as rationals
(`ℚ`) where only field arithmetic occurs, as reals (`ℝ`) where a square
root is taken, and as an explicit variant type (`JSNum`) where the code
distinguishes `NaN`/`Infinity`.  Ambient effects (`Date.now()`, the
provider network, the Postgres store) are made explicit parameters.
-/

/-! ## JavaScript string primitives used by the sources -/

/-- Lower-casing as performed by `String.prototype.toLowerCase` on the
alphabets that occur in the sources: ASCII `A`-`Z` and Cyrillic `А`-`Я`
plus `Ё`. -/
def jsToLowerChar (c : Char) : Char :=
  if 'A' ≤ c ∧ c ≤ 'Z' then Char.ofNat (c.toNat + 32)
  else if 'А' ≤ c ∧ c ≤ 'Я' then Char.ofNat (c.toNat + 32)
  else if c = 'Ё' then 'ё'
  else c

/-- Model of `s.toLowerCase()`. -/
def jsToLower (s : String) : String := String.mk (s.toList.map jsToLowerChar)

/-- Splitting on a single-character separator, the behaviour of
`s.split(sep)` for a one-character string separator (every occurrence
splits; adjacent separators produce empty fields; splitting the empty
string yields one empty field). -/
def jsSplitCharAux (sep : Char) : List Char → List Char → List String
  | [], acc => [String.mk acc.reverse]
  | c :: rest, acc =>
    if c = sep then String.mk acc.reverse :: jsSplitCharAux sep rest []
    else jsSplitCharAux sep rest (c :: acc)

/-- Model of `s.split(sep)` for a single-character separator. -/
def jsSplitChar (sep : Char) (s : String) : List String :=
  jsSplitCharAux sep s.toList []

/-- Model of `s.trim()`. -/
def jsTrim (s : String) : String :=
  String.mk (((s.toList.dropWhile Char.isWhitespace).reverse.dropWhile
    Char.isWhitespace).reverse)

/-- Model of `s.includes(sub)`: substring containment. -/
def jsIncludes (s sub : String) : Bool :=
  s.toList.tails.any (fun t => sub.toList.isPrefixOf t)

/-- Model of `s.indexOf(sub)`: index of the first occurrence, `-1` when
absent. -/
def jsIndexOf (s sub : String) : Int :=
  match (List.range (s.toList.length + 1)).find?
      (fun i => sub.toList.isPrefixOf (s.toList.drop i)) with
  | some i => Int.ofNat i
  | none => -1

/-- Model of `x || d` on an optional nonnegative number: JavaScript `||`
falls back on the default both when the value is absent and when it is
the falsy number `0`. -/
def jsOrNat (x : Option Nat) (d : Nat) : Nat :=
  match x with
  | some n => if n = 0 then d else n
  | none => d

/-- Model of `x || d` for an optional rational (`0` is falsy). -/
def jsOrRat (x : Option ℚ) (d : ℚ) : ℚ :=
  match x with
  | some q => if q = 0 then d else q
  | none => d

/-- Model of `Math.max` on two ordinary numbers. -/
def jsMax (a b : ℚ) : ℚ := if a ≤ b then b else a

/-- Model of `Math.min` on two ordinary numbers. -/
def jsMin (a b : ℚ) : ℚ := if a ≤ b then a else b

/-! ## EmbeddingService.validateEmbedding (embedding-service.ts:163-173)

A JavaScript `number` is either an ordinary (finite) IEEE value, `NaN`,
or one of the two infinities.  The finite case is carried as a rational:
`validateEmbedding` performs no arithmetic, it only tests `isNaN`. -/

/-- Model of a JavaScript `number` for code that distinguishes `NaN` and
the infinities. -/
inductive JSNum where
  | num (q : ℚ)
  | nan
  | inf
  | negInf
  deriving DecidableEq, Repr

/-- Model of the global `isNaN` applied to a number. -/
def JSNum.isNaNb : JSNum → Bool
  | .nan => true
  | _ => false

/-- A finite JavaScript number (`Number.isFinite`). -/
def JSNum.isFiniteNum : JSNum → Bool
  | .num _ => true
  | _ => false

/-- Model of `EmbeddingModelConfig` (embedding-service.ts:8-13). -/
structure EmbeddingModelConfig where
  provider : String
  model : String
  dimensions : Nat
  maxTokens : Nat
  deriving DecidableEq, Repr

/-- Model of `EmbeddingService.validateEmbedding`
(embedding-service.ts:163-173).  The input is typed as a list, so the
`Array.isArray` guard of the source is vacuously true here; the remaining
checks are the length test against the configured dimension and
`typeof value === 'number' && !isNaN(value)` for every component (every
`JSNum` is a `number`, so only the `isNaN` test is operative). -/
def validateEmbedding (config : EmbeddingModelConfig) (embedding : List JSNum) : Bool :=
  if embedding.length ≠ config.dimensions then false
  else embedding.all (fun v => !v.isNaNb)

/-! ## GenerationService.calculateConfidence (generation-service.ts:293-323) -/

/-- The fixed hedging-phrase list of `calculateConfidence`
(generation-service.ts:311-314). -/
def uncertaintyPhrases : List String :=
  ["не уверен", "возможно", "вероятно", "может быть",
   "not sure", "possibly", "maybe", "might be"]

/-- Model of `GenerationService.calculateConfidence`
(generation-service.ts:293-323), with JavaScript numbers as exact
rationals.  Each `let` mirrors one mutation of the `confidence`
variable in the source. -/
def calculateConfidence (answer context : String) : ℚ :=
  let confidence : ℚ := 1/2
  let confidence := if answer.length > 200 then confidence + 1/10 else confidence
  let confidence := if answer.length > 500 then confidence + 1/10 else confidence
  let contextWords := jsSplitChar ' ' (jsToLower context)
  let answerWords := jsSplitChar ' ' (jsToLower answer)
  let overlap :=
    (contextWords.filter (fun w => answerWords.contains w && decide (w.length > 3))).length
  let overlapRatio : ℚ := (overlap : ℚ) / ((min contextWords.length 100 : Nat) : ℚ)
  let confidence := confidence + overlapRatio * (3/10)
  let confidence := uncertaintyPhrases.foldl
    (fun c phrase => if jsIncludes (jsToLower answer) phrase then c - 1/10 else c)
    confidence
  jsMax (1/10) (jsMin (19/20) confidence)

/-- The `+0.1` length bonuses of `calculateConfidence`, in closed form. -/
def lengthBonus (answer : String) : ℚ :=
  (if answer.length > 200 then (1:ℚ)/10 else 0) + (if answer.length > 500 then (1:ℚ)/10 else 0)

/-- The lexical-overlap ratio of `calculateConfidence`, in closed form:
context words (split on single spaces) that also occur among the answer
words and are longer than 3 characters, divided by the context word
count capped at 100. -/
def overlapRatioQ (answer context : String) : ℚ :=
  (((jsSplitChar ' ' (jsToLower context)).filter (fun w =>
      (jsSplitChar ' ' (jsToLower answer)).contains w && decide (w.length > 3))).length : ℚ)
    / ((min (jsSplitChar ' ' (jsToLower context)).length 100 : Nat) : ℚ)

/-- Number of hedging phrases detected in the answer. -/
def hedgeCount (answer : String) : Nat :=
  (uncertaintyPhrases.filter (fun phrase => jsIncludes (jsToLower answer) phrase)).length

/-- The confidence function as the claim C6 words it: identical to
`calculateConfidence` except that the overlap bonus is capped at `0.3`
("an overlap bonus of at most 0.3"). -/
def claimConfidence (answer context : String) : ℚ :=
  jsMax (1/10) (jsMin (19/20)
    (1/2 + lengthBonus answer + jsMin (overlapRatioQ answer context * (3/10)) (3/10)
      - (hedgeCount answer : ℚ) * (1/10)))

/-- A context string of 101 space-separated copies of the word `abcd`,
used to exercise the overlap bonus beyond the 100-word cap. -/
def repeatedWord : Nat → String
  | 0 => "abcd"
  | n + 1 => "abcd " ++ repeatedWord n

/-! ## Helper lemmas about `calculateConfidence` -/

/-- The hedging-phrase `forEach` of the source subtracts `0.1` once per
phrase found in the answer. -/
theorem foldl_hedge (s : String) :
    ∀ (l : List String) (c : ℚ),
      l.foldl (fun c phrase => if jsIncludes s phrase then c - 1/10 else c) c
        = c - ((l.filter (fun phrase => jsIncludes s phrase)).length : ℚ) * (1/10) := by
  intro l
  induction l with
  | nil => intro c; simp
  | cons p t ih =>
    intro c
    simp only [List.foldl_cons, List.filter_cons]
    by_cases h : jsIncludes s p
    · simp only [h, if_true, ite_true, eq_self_iff_true]
      rw [ih, List.length_cons]
      push_cast
      ring
    · simp only [h, if_false, ite_false, Bool.false_eq_true, not_false_iff]
      rw [ih]

/-- Closed form of `calculateConfidence`: the sequential mutations of the
`confidence` variable amount to base `0.5`, plus the length bonuses, plus
`0.3` times the overlap ratio, minus `0.1` per detected hedging phrase,
clamped to `[0.1, 0.95]`. -/
theorem calculateConfidence_closedForm (a c : String) :
    calculateConfidence a c
      = jsMax (1/10) (jsMin (19/20)
          (1/2 + lengthBonus a + overlapRatioQ a c * (3/10) - (hedgeCount a : ℚ) * (1/10))) := by
  simp only [calculateConfidence, lengthBonus, overlapRatioQ, hedgeCount]
  rw [foldl_hedge]
  congr 2
  by_cases h2 : a.length > 200 <;> by_cases h5 : a.length > 500 <;> simp [h2, h5] <;> ring

/-! ## Claim C4 -/

/-- C4 counterexample: `validateEmbedding` accepts a correctly sized
embedding containing `Infinity`, although `Infinity` is not a finite
number, so acceptance is not equivalent to "length matches and every
component is finite" as the claim states. -/
theorem validateEmbedding_claim_counterexample :
    ¬ (validateEmbedding ⟨"openai", "text-embedding-ada-002", 2, 8191⟩
          [JSNum.num 0, JSNum.inf] = true ↔
        (([JSNum.num 0, JSNum.inf] : List JSNum).length = 2 ∧
          ([JSNum.num 0, JSNum.inf] : List JSNum).all JSNum.isFiniteNum = true)) := by
  decide

/-- C4 (amended): `validateEmbedding` returns `true` iff the embedding's
length equals the configured dimension and no component is `NaN`; the
components are not required to be finite (the infinities pass the
`!isNaN` test), and the vector is never modified. -/
theorem validateEmbedding_amended (config : EmbeddingModelConfig)
    (embedding : List JSNum) :
    validateEmbedding config embedding = true ↔
      (embedding.length = config.dimensions ∧ ∀ v ∈ embedding, v.isNaNb = false) := by
  unfold validateEmbedding
  by_cases h : embedding.length = config.dimensions
  · simp [h, List.all_eq_true]
  · simp [h]

/-! ## Claim C7 -/

/-- C7: for every answer and context, the confidence computed by
`calculateConfidence` lies in the closed interval `[0.1, 0.95]`,
regardless of answer length, overlap or hedge count. -/
theorem calculateConfidence_bounds (answer context : String) :
    1/10 ≤ calculateConfidence answer context ∧
      calculateConfidence answer context ≤ 19/20 := by
  rw [calculateConfidence_closedForm]
  unfold jsMax jsMin
  split_ifs <;> constructor <;> linarith

/-! ## Claim C6 -/

set_option maxRecDepth 8192 in
/-- C6 counterexample: on a context of 101 space-separated words all
shared with the answer, the overlap bonus is `0.3 · 101/100 > 0.3`, so
the computed confidence (`0.803`) differs from the claim's formula with
its bonus capped at `0.3` (`0.8`). -/
theorem calculateConfidence_cap_counterexample :
    calculateConfidence "abcd" (repeatedWord 100) ≠
      claimConfidence "abcd" (repeatedWord 100) := by
  have hnum : ((jsSplitChar ' ' (jsToLower (repeatedWord 100))).filter (fun w =>
      (jsSplitChar ' ' (jsToLower "abcd")).contains w && decide (w.length > 3))).length
        = 101 := by decide
  have hden : min (jsSplitChar ' ' (jsToLower (repeatedWord 100))).length 100 = 100 := by
    decide
  have hratio : overlapRatioQ "abcd" (repeatedWord 100) = 101/100 := by
    unfold overlapRatioQ
    rw [hnum, hden]
    norm_num
  have hhedge : hedgeCount "abcd" = 0 := by decide
  have h4 : "abcd".length = 4 := rfl
  have hlb : lengthBonus "abcd" = 0 := by
    unfold lengthBonus
    rw [h4]
    norm_num
  rw [calculateConfidence_closedForm]
  unfold claimConfidence
  rw [hratio, hhedge, hlb]
  norm_num [jsMax, jsMin]

/-- The split of any string has at least one field. -/
theorem jsSplitCharAux_length_pos (sep : Char) :
    ∀ (l acc : List Char), 0 < (jsSplitCharAux sep l acc).length := by
  intro l
  induction l with
  | nil => intro acc; simp [jsSplitCharAux]
  | cons c t ih =>
    intro acc
    by_cases hc : c = sep
    · simp [jsSplitCharAux, hc]
    · simp only [jsSplitCharAux, hc, if_neg, ite_false]
      exact ih _

/-- C6 (amended): the confidence is base `0.5`, plus `0.1` for answers
longer than 200 characters and a further `0.1` beyond 500, plus an
overlap bonus of `0.3 · overlap / min(contextWords, 100)` — which is at
most `0.3` whenever the context has at most 100 space-separated words,
but is not capped and exceeds `0.3` on longer contexts — minus `0.1` per
detected hedging phrase, clamped to `[0.1, 0.95]`. -/
theorem calculateConfidence_amended (answer context : String) :
    calculateConfidence answer context
      = jsMax (1/10) (jsMin (19/20)
          (1/2 + lengthBonus answer + overlapRatioQ answer context * (3/10)
            - (hedgeCount answer : ℚ) * (1/10))) ∧
      ((jsSplitChar ' ' (jsToLower context)).length ≤ 100 →
        overlapRatioQ answer context * (3/10) ≤ 3/10) := by
  refine ⟨calculateConfidence_closedForm answer context, fun h => ?_⟩
  unfold overlapRatioQ
  set L := jsSplitChar ' ' (jsToLower context) with hL
  have hpos : 0 < L.length := by
    rw [hL]
    exact jsSplitCharAux_length_pos ' ' _ []
  have hmin : min L.length 100 = L.length := min_eq_left h
  rw [hmin]
  have hcount : ((L.filter (fun w =>
      (jsSplitChar ' ' (jsToLower answer)).contains w && decide (w.length > 3))).length : ℚ)
        ≤ (L.length : ℚ) := by
    exact_mod_cast List.length_filter_le _ _
  have hq : (0:ℚ) < (L.length : ℚ) := by exact_mod_cast hpos
  have hone : ((L.filter (fun w =>
      (jsSplitChar ' ' (jsToLower answer)).contains w && decide (w.length > 3))).length : ℚ)
        / (L.length : ℚ) ≤ 1 := by
    rw [div_le_one hq]
    exact hcount
  nlinarith [hone, hq]

/-- Witness for C6's amended theorem at a concrete short context. -/
theorem calculateConfidence_amended_witness :
    (jsSplitChar ' ' (jsToLower "pricing written here")).length ≤ 100 ∧
      overlapRatioQ "pricing info" "pricing written here" * (3/10) ≤ 3/10 :=
  ⟨by decide, (calculateConfidence_amended "pricing info" "pricing written here").2 (by decide)⟩

/-! ## EmbeddingService.normalizeEmbedding (embedding-service.ts:178-188)

`Math.sqrt` forces a real-number model here.  The reduction
`embedding.reduce((sum, value) => sum + value * value, 0)` is the left
fold `sumSq`; the magnitude test and the division mirror the source. -/

/-- Model of the `reduce` computing the sum of squared components. -/
def sumSq (v : List ℝ) : ℝ := v.foldl (fun s x => s + x * x) 0

/-- The magnitude `Math.sqrt(sumSq v)`. -/
noncomputable def magnitude (v : List ℝ) : ℝ := Real.sqrt (sumSq v)

open Classical in
/-- Model of `EmbeddingService.normalizeEmbedding`
(embedding-service.ts:178-188): return the input unchanged when the
magnitude is zero, otherwise divide every component by the magnitude. -/
noncomputable def normalizeEmbedding (v : List ℝ) : List ℝ :=
  if magnitude v = 0 then v else v.map (fun x => x / magnitude v)

/-- The left fold of squares equals the sum of the squared components. -/
theorem sumSq_eq_sum (v : List ℝ) : sumSq v = (v.map (fun x => x * x)).sum := by
  have key : ∀ (l : List ℝ) (a : ℝ),
      l.foldl (fun s x => s + x * x) a = a + (l.map fun x => x * x).sum := by
    intro l
    induction l with
    | nil => intro a; simp
    | cons x t ih => intro a; simp [ih]; ring
  simpa [sumSq] using key v 0

/-- A sum of squares is nonnegative. -/
theorem sumSq_nonneg (v : List ℝ) : 0 ≤ sumSq v := by
  rw [sumSq_eq_sum]
  apply List.sum_nonneg
  intro x hx
  simp only [List.mem_map] at hx
  obtain ⟨y, _, rfl⟩ := hx
  exact mul_self_nonneg y

/-- The magnitude vanishes exactly on vectors with zero sum of squares. -/
theorem magnitude_eq_zero_iff (v : List ℝ) : magnitude v = 0 ↔ sumSq v = 0 := by
  constructor
  · intro h
    have h2 := Real.sqrt_eq_zero'.1 h
    have := sumSq_nonneg v
    linarith
  · intro h
    rw [magnitude, h, Real.sqrt_zero]

/-- Dividing every component scales the sum of squares accordingly. -/
theorem sumSq_map_div (v : List ℝ) (m : ℝ) :
    sumSq (v.map (fun x => x / m)) = sumSq v / (m * m) := by
  rw [sumSq_eq_sum, sumSq_eq_sum, List.map_map]
  induction v with
  | nil => simp
  | cons x t ih =>
    simp only [List.map_cons, List.sum_cons, Function.comp_apply, ih]
    rw [add_div, div_mul_div_comm]

/-! ## Claim C10 -/

/-- C10: `normalizeEmbedding` is total, returns the input unchanged on
every zero-magnitude vector (in particular the empty and the all-zero
vectors), and otherwise produces a vector of unit length (sum of squared
components equal to 1).  In the real-number model the division is
performed only when the magnitude is nonzero, which is the absence of
the `0/0 = NaN` hazard. -/
theorem normalizeEmbedding_spec (v : List ℝ) :
    ((∀ x ∈ v, x = 0) → normalizeEmbedding v = v) ∧
      (sumSq v = 0 → normalizeEmbedding v = v) ∧
      (sumSq v ≠ 0 → sumSq (normalizeEmbedding v) = 1) := by
  have hmz := magnitude_eq_zero_iff v
  have hzero : (sumSq v = 0) → normalizeEmbedding v = v := by
    intro h
    unfold normalizeEmbedding
    rw [if_pos (hmz.2 h)]
  refine ⟨?_, hzero, ?_⟩
  · intro h
    apply hzero
    rw [sumSq_eq_sum]
    apply List.sum_eq_zero
    intro y hy
    simp only [List.mem_map] at hy
    obtain ⟨x, hx, rfl⟩ := hy
    rw [h x hx]
    ring
  · intro h
    have hm : magnitude v ≠ 0 := fun hh => h (hmz.1 hh)
    unfold normalizeEmbedding
    rw [if_neg hm, sumSq_map_div]
    have hsq : magnitude v * magnitude v = sumSq v :=
      Real.mul_self_sqrt (sumSq_nonneg v)
    rw [hsq, div_self h]

/-- Witness for C10: the empty vector is returned unchanged, and the
vector `[3, 4]` is normalized to unit length. -/
theorem normalizeEmbedding_spec_witness :
    normalizeEmbedding ([] : List ℝ) = [] ∧
      sumSq (normalizeEmbedding [(3:ℝ), 4]) = 1 :=
  ⟨(normalizeEmbedding_spec []).2.1 (by simp [sumSq]),
   (normalizeEmbedding_spec [3, 4]).2.2 (by norm_num [sumSq])⟩

/-! ## EmbeddingService.processOpenAIBatch (embedding-service.ts:210-240)

The provider is an oracle mapping the attempt number to the outcome of
one `openai.embeddings.create` call.  The source's catch clause retries
by a recursive call on `rate_limit_exceeded`, so the embedding carries a
fuel argument: `none` models the case where the recursion never
returns. -/

/-- Outcome of one provider call. -/
inductive BatchOutcome where
  | ok (embeddings : List (List ℚ)) (totalTokens : Nat)
  | err (code : String)
  deriving DecidableEq, Repr

/-- Result of `processOpenAIBatch` as seen by the caller. -/
inductive BatchResult where
  | success (embeddings : List (List ℚ)) (totalTokens : Nat)
  | failure (code : String)
  deriving DecidableEq, Repr

/-- Model of `EmbeddingService.processOpenAIBatch`
(embedding-service.ts:210-240): submit the batch; on a
`rate_limit_exceeded` error wait and call itself again (an unbounded
recursion in the source, hence the fuel); any other error propagates. -/
def processOpenAIBatch (provider : Nat → BatchOutcome) :
    Nat → Nat → Option BatchResult
  | 0, _ => none
  | fuel + 1, attempt =>
    match provider attempt with
    | .ok es t => some (.success es t)
    | .err c =>
      if c = "rate_limit_exceeded" then processOpenAIBatch provider fuel (attempt + 1)
      else some (.failure c)

/-- The behaviour claim C5 describes (and the source's own comment
"Wait and retry once"): the batch is retried exactly once after a
throttling failure, and any failure of the retry — throttling included —
propagates to the caller. -/
def retryOnceSpec (provider : Nat → BatchOutcome) : BatchResult :=
  match provider 0 with
  | .ok es t => .success es t
  | .err c =>
    if c = "rate_limit_exceeded" then
      match provider 1 with
      | .ok es t => .success es t
      | .err c2 => .failure c2
    else .failure c

/-- A provider that throttles on the first two attempts and succeeds on
the third. -/
def throttleTwiceProvider : Nat → BatchOutcome := fun attempt =>
  if attempt < 2 then .err "rate_limit_exceeded" else .ok [[1]] 5

/-! ## Claim C5 -/

/-- C5 (code bug): when the provider throttles twice and then succeeds,
the source's recursive retry returns the third attempt's success instead
of propagating the second throttling failure as the claim (and the
code's own "retry once" comment) require; with a permanently throttling
provider the recursion never returns at all, for any amount of fuel. -/
theorem processOpenAIBatch_retry_divergence :
    processOpenAIBatch throttleTwiceProvider 3 0 = some (.success [[1]] 5) ∧
      retryOnceSpec throttleTwiceProvider = .failure "rate_limit_exceeded" ∧
      ∀ fuel : Nat,
        processOpenAIBatch (fun _ => .err "rate_limit_exceeded") fuel 0 = none := by
  refine ⟨by decide, by decide, ?_⟩
  have key : ∀ (fuel attempt : Nat),
      processOpenAIBatch (fun _ => .err "rate_limit_exceeded") fuel attempt = none := by
    intro fuel
    induction fuel with
    | zero => intro attempt; rfl
    | succ n ih => intro attempt; simpa [processOpenAIBatch] using ih (attempt + 1)
  exact fun fuel => key fuel 0

/-! ## RAGManager.searchDocuments ranking (rag-manager.ts:307-316)

A hit is reduced to the fields the ranking inspects: the retrieval score
(`relevanceScore`), the optional domain score (`salesRelevanceScore`)
and the owning document's creation time.  `Array.prototype.sort` with
the comparator `scoreB - scoreA` is the stable descending sort by the
combined score, and the returned array is `slice(0, limit)`. -/

/-- The fields of a `RAGSearchResult` that the final ranking reads. -/
structure RAGSearchResultM where
  relevanceScore : ℚ
  salesRelevanceScore : Option ℚ
  documentCreatedAt : ℤ
  deriving DecidableEq, Repr

/-- The ranking key computed inside the sort comparator
(rag-manager.ts:309-312): `a.salesRelevanceScore ? (a.relevanceScore +
a.salesRelevanceScore) / 2 : a.relevanceScore`.  JavaScript truthiness
makes a present-but-zero domain score fall back to the retrieval score
alone. -/
def combinedScore (r : RAGSearchResultM) : ℚ :=
  match r.salesRelevanceScore with
  | some s => if s = 0 then r.relevanceScore else (r.relevanceScore + s) / 2
  | none => r.relevanceScore

instance combinedScoreRelDec :
    DecidableRel (fun a b : RAGSearchResultM => combinedScore b ≤ combinedScore a) :=
  fun a b => inferInstanceAs (Decidable (combinedScore b ≤ combinedScore a))

/-- Model of the sort-and-truncate step of `RAGManager.searchDocuments`
(rag-manager.ts:307-316): the stable descending sort by `combinedScore`
followed by `slice(0, limit)` (the limit argument stands for
`request.limit || this.config.search.defaultLimit`, already resolved). -/
def searchRank (results : List RAGSearchResultM) (limit : Nat) : List RAGSearchResultM :=
  (List.insertionSort (fun a b => combinedScore b ≤ combinedScore a) results).take limit

/-- The ranking key exactly as claim C3 words it: the average whenever a
domain score exists, the retrieval score otherwise. -/
def claimCombinedScore (r : RAGSearchResultM) : ℚ :=
  match r.salesRelevanceScore with
  | some s => (r.relevanceScore + s) / 2
  | none => r.relevanceScore

/-- The ordering claim C3 asserts: combined key descending, ties broken
by retrieval score descending, then by document recency descending. -/
def claimTieRel (a b : RAGSearchResultM) : Prop :=
  claimCombinedScore b < claimCombinedScore a ∨
    (claimCombinedScore a = claimCombinedScore b ∧
      (b.relevanceScore < a.relevanceScore ∨
        (a.relevanceScore = b.relevanceScore ∧
          b.documentCreatedAt ≤ a.documentCreatedAt)))

instance claimTieRelDec : DecidableRel claimTieRel := fun a b => by
  unfold claimTieRel
  infer_instance

/-- The ranking claim C3 describes, as a reference function. -/
def claimRank (results : List RAGSearchResultM) (limit : Nat) : List RAGSearchResultM :=
  (List.insertionSort claimTieRel results).take limit

instance : IsTotal RAGSearchResultM (fun a b => combinedScore b ≤ combinedScore a) :=
  ⟨fun a b => le_total (combinedScore b) (combinedScore a)⟩

instance : IsTrans RAGSearchResultM (fun a b => combinedScore b ≤ combinedScore a) :=
  ⟨fun _ _ _ hab hbc => le_trans hbc hab⟩

/-! ## Claim C3 -/

/-- C3 counterexample: the claimed tie-breaks do not exist in the code.
First input: two hits with equal combined keys (`0.6`) — the code's
stable sort keeps the arrival order, while the claim demands the hit
with the higher retrieval score (`0.8`) first.  Second input: a hit
whose domain score is present but `0` — the code keys it by its
retrieval score alone (JS truthiness), while the claim keys it by the
average. -/
theorem searchDocuments_rank_counterexample :
    searchRank [⟨6/10, none, 0⟩, ⟨8/10, some (4/10), 0⟩] 2 ≠
        claimRank [⟨6/10, none, 0⟩, ⟨8/10, some (4/10), 0⟩] 2 ∧
      searchRank [⟨1/2, some 0, 0⟩, ⟨2/5, none, 0⟩] 2 ≠
        claimRank [⟨1/2, some 0, 0⟩, ⟨2/5, none, 0⟩] 2 := by
  constructor <;>
    norm_num [searchRank, claimRank, List.insertionSort, List.orderedInsert,
      combinedScore, claimCombinedScore, claimTieRel, RAGSearchResultM.mk.injEq]

/-- C3 (amended): the final ranking key is the average of retrieval and
domain score when the latter exists and is nonzero (a zero domain score
is falsy and yields the retrieval score alone), hits are sorted by this
key descending with ties keeping their pre-sort order (stable sort; no
retrieval-score or recency tie-break), and the list is truncated to the
limit.  The concrete examples of the claim hold: retrieval `0.9` beats
`0.8` without domain context, and domain scores `0.2`/`0.9` (averages
`0.55` vs `0.85`) invert that ranking. -/
theorem searchDocuments_rank_amended :
    (∀ (rs : List RAGSearchResultM) (limit : Nat),
        (searchRank rs limit).length ≤ limit) ∧
      (∀ (rs : List RAGSearchResultM) (limit : Nat),
        List.Sorted (fun a b => combinedScore b ≤ combinedScore a) (searchRank rs limit)) ∧
      (∀ (rs : List RAGSearchResultM) (limit : Nat),
        rs.length ≤ limit → List.Perm (searchRank rs limit) rs) ∧
      searchRank [⟨9/10, none, 0⟩, ⟨8/10, none, 0⟩] 10
        = [⟨9/10, none, 0⟩, ⟨8/10, none, 0⟩] ∧
      searchRank [⟨9/10, some (2/10), 0⟩, ⟨8/10, some (9/10), 0⟩] 10
        = [⟨8/10, some (9/10), 0⟩, ⟨9/10, some (2/10), 0⟩] := by
  refine ⟨?_, ?_, ?_, ?_, ?_⟩
  · intro rs limit
    simp only [searchRank, List.length_take]
    exact min_le_left _ _
  · intro rs limit
    exact List.Pairwise.sublist (List.take_sublist _ _)
      (List.sorted_insertionSort _ rs)
  · intro rs limit h
    have hlen : (List.insertionSort
        (fun a b => combinedScore b ≤ combinedScore a) rs).length = rs.length :=
      (List.perm_insertionSort _ rs).length_eq
    rw [searchRank, List.take_of_length_le (le_trans (le_of_eq hlen) h)]
    exact List.perm_insertionSort _ rs
  · norm_num [searchRank, List.insertionSort, List.orderedInsert, combinedScore]
  · norm_num [searchRank, List.insertionSort, List.orderedInsert, combinedScore,
      RAGSearchResultM.mk.injEq]

/-- Witness for C3's amended theorem: a singleton list under a generous
limit is a permutation of itself. -/
theorem searchDocuments_rank_amended_witness :
    ([⟨(1:ℚ), none, 0⟩] : List RAGSearchResultM).length ≤ 5 ∧
      List.Perm (searchRank [⟨(1:ℚ), none, 0⟩] 5) [⟨(1:ℚ), none, 0⟩] :=
  ⟨by decide, searchDocuments_rank_amended.2.2.1 [⟨(1:ℚ), none, 0⟩] 5 (by decide)⟩

/-! ## VectorDatabase (vector-database.ts)

The `knowledge_chunks` table is a list of rows; `insert`, `delete ...
eq(...)` and the `match_chunks` similarity query are modelled on it
directly.  The pgvector cosine similarity `1 - (embedding <=>
query_embedding)` is an external floating-point computation and enters
as the function parameter `sim`; the claims about tenant scoping hold or
fail uniformly in it.  Modelled requests carry no metadata filters and
no reranking flag, i.e. they take the straight-through path of
`VectorDatabase.search` in which `applyFilters` and `rerankResults` are
skipped. -/

/-- A chunk as handed to `VectorDatabase.indexChunks`: `RAGManager`
attaches the embedding before indexing. -/
structure IndexChunk where
  id : String
  content : String
  embedding : List ℚ
  deriving DecidableEq, Repr

/-- A row of the `knowledge_chunks` table as built by `indexChunks`
(vector-database.ts, `vectorRecords`). -/
structure ChunkRow where
  id : String
  documentId : String
  chunkId : String
  tenantId : String
  content : String
  embedding : List ℚ
  deriving DecidableEq, Repr

/-- Model of `VectorDatabase.extractTenantFromDocumentId`: the source is
an unimplemented stub (its TODO says "Implement proper tenant extraction
from document ID") that returns the literal `'default-tenant'` for every
document. -/
def extractTenantFromDocumentId (_documentId : String) : String := "default-tenant"

/-- Model of `VectorDatabase.indexChunks(documentId, chunks)`: one row
per chunk is inserted, with `tenant_id` produced by
`extractTenantFromDocumentId` — not by the tenant that owns the
document. -/
def indexChunks (documentId : String) (chunks : List IndexChunk)
    (table : List ChunkRow) : List ChunkRow :=
  table ++ chunks.map (fun c =>
    { id := c.id, documentId := documentId, chunkId := c.id,
      tenantId := extractTenantFromDocumentId documentId,
      content := c.content, embedding := c.embedding })

/-- The ingestion step of `RAGManager.processDocument` as it reaches the
vector store (rag-manager.ts:107,468-470): `indexDocumentChunks`
receives only the document id — the requesting tenant (first argument)
is not forwarded. -/
def ingestDocument (_tenantId : String) (documentId : String)
    (chunks : List IndexChunk) (table : List ChunkRow) : List ChunkRow :=
  indexChunks documentId chunks table

/-- A `VectorSearchRequest` on the straight-through path (no filters,
no rerank). -/
structure VectorSearchRequestM where
  embedding : List ℚ
  tenantId : String
  limit : Option Nat
  threshold : Option ℚ
  deriving Repr

/-- A `VectorSearchResult` with the metadata fields the code copies out
of the row. -/
structure VectorSearchResultM where
  id : String
  score : ℚ
  documentId : String
  chunkId : String
  content : String
  deriving DecidableEq, Repr

/-- Stable insertion (descending by key) of one element: placed after
every element with an equal or larger key. -/
def insertDesc (key : α → ℚ) (a : α) : List α → List α
  | [] => [a]
  | b :: l => if key b < key a then a :: b :: l else b :: insertDesc key a l

/-- Stable descending sort by a rational key (`ORDER BY similarity
DESC`). -/
def sortDesc (key : α → ℚ) : List α → List α
  | [] => []
  | a :: l => insertDesc key a (sortDesc key l)

/-- Model of `VectorDatabase.search` (vector-database.ts): restrict the
table to rows whose `tenant_id` equals the request's tenant
(`.eq('tenant_id', request.tenantId)`), then apply the `match_chunks`
semantics — keep candidates whose similarity exceeds
`request.threshold || 0.7`, order by similarity descending, limit to
`request.limit || 10` — and project each row to a result. -/
def search (sim : List ℚ → List ℚ → ℚ) (req : VectorSearchRequestM)
    (table : List ChunkRow) : List VectorSearchResultM :=
  let tenantRows := table.filter (fun r => r.tenantId == req.tenantId)
  let matched := tenantRows.filter
    (fun r => decide (jsOrRat req.threshold (7/10) < sim r.embedding req.embedding))
  let ordered := sortDesc (fun r => sim r.embedding req.embedding) matched
  (ordered.take (jsOrNat req.limit 10)).map (fun r =>
    { id := r.chunkId, score := sim r.embedding req.embedding,
      documentId := r.documentId, chunkId := r.chunkId, content := r.content })

/-- Model of `VectorDatabase.deleteDocument(documentId, tenantId)`:
delete the rows matching both the document id and the tenant id. -/
def deleteDocument (documentId tenantId : String)
    (table : List ChunkRow) : List ChunkRow :=
  table.filter (fun r => !(r.documentId == documentId && r.tenantId == tenantId))

/-- A similarity oracle under which every stored vector scores `2`,
far above any threshold — "regardless of how similar". -/
def simConst : List ℚ → List ℚ → ℚ := fun _ _ => 2

/-! ## Claim C1 -/

/-- C1 (code bug): tenant `tenant-B` ingests a document, but
`indexChunks` stamps the row with the stub value `default-tenant`, so a
search issued with `tenantId = "default-tenant"` — a tenant distinct
from `tenant-B` — passes the `eq('tenant_id', ...)` guard and receives
tenant B's chunk. -/
theorem search_tenant_isolation_bug :
    search simConst ⟨[1], "default-tenant", some 10, some 1⟩
        (ingestDocument "tenant-B" "docB" [⟨"cB", "tenant B secret", [1]⟩] [])
      = [⟨"cB", 2, "docB", "cB", "tenant B secret"⟩] ∧
      "default-tenant" ≠ "tenant-B" := by
  decide

/-! ## Claim C2 -/

/-- C2 (code bug): after tenant `tenant-B` ingests document `docB`,
`deleteDocument "docB" "tenant-B"` removes nothing — the stored rows
carry `tenant_id = "default-tenant"`, so the tenant-scoped delete
matches no row — and the chunk remains retrievable by a subsequent
search. -/
theorem deleteDocument_roundtrip_bug :
    deleteDocument "docB" "tenant-B"
        (ingestDocument "tenant-B" "docB" [⟨"cB", "tenant B secret", [1]⟩] [])
      = ingestDocument "tenant-B" "docB" [⟨"cB", "tenant B secret", [1]⟩] [] ∧
      search simConst ⟨[1], "default-tenant", some 10, some 1⟩
          (deleteDocument "docB" "tenant-B"
            (ingestDocument "tenant-B" "docB" [⟨"cB", "tenant B secret", [1]⟩] []))
        = [⟨"cB", 2, "docB", "cB", "tenant B secret"⟩] := by
  decide

/-! ## DocumentProcessor (document-processor source)

`Date.now()` enters as the explicit parameter `now` (it is embedded in
chunk ids).  The regex separators of the three splitting strategies are
implemented with JavaScript's leftmost-match, greedy-with-backtracking
semantics over the character list. -/

/-- Uppercase Latin letter, the regex class `[A-Z]`. -/
def isUpperLatin (c : Char) : Bool := 'A' ≤ c && c ≤ 'Z'

/-- Uppercase Cyrillic letter, the regex class `[А-Я]`. -/
def isUpperCyr (c : Char) : Bool := 'А' ≤ c && c ≤ 'Я'

/-- The regex class `[A-ZА-Я]`. -/
def isUpperAZ (c : Char) : Bool := isUpperLatin c || isUpperCyr c

/-- Model of `Array.prototype.join(sep)`. -/
def joinSep (sep : String) : List String → String
  | [] => ""
  | [x] => x
  | x :: xs => x ++ sep ++ joinSep sep xs

/-- Model of `s.slice(-n)` for `0 < n < s.length`: the last `n`
characters. -/
def strTakeRight (s : String) (n : Nat) : String :=
  String.mk (s.toList.drop (s.length - n))

/-- Model of `s.slice(a, b)` for `0 ≤ a ≤ b`. -/
def strSlice (s : String) (a b : Nat) : String :=
  String.mk ((s.toList.drop a).take (b - a))

/-- Length of the match of `/\n\s*\n/` at the head of the list, if any:
a newline, then the greedy whitespace run backtracked to its last
newline. -/
def paragraphSepLen (l : List Char) : Option Nat :=
  match l with
  | '\n' :: rest =>
    let ws := rest.takeWhile (fun c => c.isWhitespace)
    match ws.reverse.findIdx? (fun c => c = '\n') with
    | some i => some (ws.length - 1 - i + 2)
    | none => none
  | _ => none

/-- Length of the match of `/[.!?]\s+/` at the head of the list. -/
def sentenceSepLen (l : List Char) : Option Nat :=
  match l with
  | c :: rest =>
    if c = '.' || c = '!' || c = '?' then
      let ws := rest.takeWhile (fun d => d.isWhitespace)
      if ws.isEmpty then none else some (1 + ws.length)
    else none
  | [] => none

/-- Length of the match of
`/\n\s*#{1,6}\s+|\n\s*\d+\.\s+|\n\s*[A-Z][A-Z\s]+:/` at the head of the
list, trying the alternatives left to right as the regex engine does. -/
def sectionSepLen (l : List Char) : Option Nat :=
  match l with
  | '\n' :: rest =>
    let ws := rest.takeWhile (fun c => c.isWhitespace)
    let after := rest.drop ws.length
    let hashes := after.takeWhile (fun c => c = '#')
    let alt1 : Option Nat :=
      if 1 ≤ hashes.length ∧ hashes.length ≤ 6 then
        let ws2 := (after.drop hashes.length).takeWhile (fun c => c.isWhitespace)
        if ws2.isEmpty then none
        else some (1 + ws.length + hashes.length + ws2.length)
      else none
    match alt1 with
    | some k => some k
    | none =>
      let ds := after.takeWhile (fun c => c.isDigit)
      let alt2 : Option Nat :=
        if ds.isEmpty then none
        else
          match after.drop ds.length with
          | '.' :: r2 =>
            let ws2 := r2.takeWhile (fun c => c.isWhitespace)
            if ws2.isEmpty then none
            else some (1 + ws.length + ds.length + 1 + ws2.length)
          | _ => none
      match alt2 with
      | some k => some k
      | none =>
        match after with
        | c :: r1 =>
          if isUpperLatin c then
            let run := r1.takeWhile (fun d => isUpperLatin d || d.isWhitespace)
            if run.isEmpty then none
            else
              match r1.drop run.length with
              | ':' :: _ => some (1 + ws.length + 1 + run.length + 1)
              | _ => none
          else none
        | [] => none
  | _ => none

/-- Every paragraph-separator match consumes at least one character. -/
theorem paragraphSepLen_pos :
    ∀ (l : List Char) (k : Nat), paragraphSepLen l = some k → 0 < k := by
  intro l k h
  unfold paragraphSepLen at h
  split at h
  · dsimp only [] at h
    split at h
    · simp only [Option.some.injEq] at h
      omega
    · simp at h
  · simp at h

/-- Every sentence-separator match consumes at least one character. -/
theorem sentenceSepLen_pos :
    ∀ (l : List Char) (k : Nat), sentenceSepLen l = some k → 0 < k := by
  intro l k h
  unfold sentenceSepLen at h
  split at h
  · split at h
    · dsimp only [] at h
      split at h
      · simp at h
      · simp only [Option.some.injEq] at h
        omega
    · simp at h
  · simp at h

/-- Every section-separator match consumes at least one character. -/
theorem sectionSepLen_pos :
    ∀ (l : List Char) (k : Nat), sectionSepLen l = some k → 0 < k := by
  intro l k h
  unfold sectionSepLen at h
  split at h
  · dsimp only [] at h
    split at h
    · rename_i i heq
      split at heq
      · split at heq
        · simp at heq
        · simp only [Option.some.injEq] at heq h
          omega
      · simp at heq
    · split at h
      · rename_i i heq
        split at heq
        · simp at heq
        · split at heq
          · split at heq
            · simp at heq
            · simp only [Option.some.injEq] at heq h
              omega
          · simp at heq
      · split at h
        · split at h
          · split at h
            · simp at h
            · split at h
              · simp only [Option.some.injEq] at h
                omega
              · simp at h
          · simp at h
        · simp at h
  · simp at h

/-- Model of `String.prototype.split` with a regular-expression
separator, driven by a head-match function `sepLen`: scan left to right,
emit the current field at each separator match and skip the match. -/
def regexSplitAux (sepLen : List Char → Option Nat)
    (hpos : ∀ l k, sepLen l = some k → 0 < k) :
    List Char → List Char → List String
  | acc, [] => [String.mk acc.reverse]
  | acc, c :: rest =>
    match h : sepLen (c :: rest) with
    | some k =>
      String.mk acc.reverse :: regexSplitAux sepLen hpos [] ((c :: rest).drop k)
    | none => regexSplitAux sepLen hpos (c :: acc) rest
  termination_by _ l => l.length
  decreasing_by
  · have hk := hpos _ _ h
    simp only [List.length_drop, List.length_cons]
    omega
  · simp only [List.length_cons]
    omega

/-- Split a string on a regex separator. -/
def regexSplit (sepLen : List Char → Option Nat)
    (hpos : ∀ l k, sepLen l = some k → 0 < k) (s : String) : List String :=
  regexSplitAux sepLen hpos [] s.toList

/-- Model of `text.split(/\n\s*\n/)`. -/
def splitParagraphs (text : String) : List String :=
  regexSplit paragraphSepLen paragraphSepLen_pos text

/-- Model of `DocumentProcessor.splitIntoSentences`: split on
`/[.!?]\s+/`, drop blank fields, trim the rest. -/
def splitIntoSentences (text : String) : List String :=
  ((regexSplit sentenceSepLen sentenceSepLen_pos text).filter
    (fun s => decide ((jsTrim s).length > 0))).map jsTrim

/-- The processing options the chunkers read (`ProcessingOptions`,
projected to the chunking fields). -/
structure ProcessingOptionsM where
  chunkStrategy : String
  chunkSize : Option Nat
  chunkOverlap : Option Nat
  deriving DecidableEq, Repr

/-- Model of a produced `DocumentChunk` (the `section` metadata field is
called `sectionLabel` because `section` is a Lean keyword). -/
structure DocumentChunk where
  id : String
  content : String
  startPosition : Int
  endPosition : Int
  chunkIndex : Nat
  chunkType : String
  sectionLabel : Option String
  pageNumber : Int
  containsProductInfo : Bool
  containsPricing : Bool
  containsCompetitorInfo : Bool
  salesRelevanceScore : ℚ
  deriving DecidableEq, Repr

/-- One line matches `/^\s*[-*]\s+/m`: leading whitespace, a bullet,
then a whitespace — where the trailing `\s` may also be the newline
ending the line (hence the `isLast` flag). -/
def lineListBullet (isLast : Bool) (l : List Char) : Bool :=
  match l.dropWhile (fun c => c.isWhitespace) with
  | c :: rest =>
    (c = '-' || c = '*') &&
      (match rest with
       | d :: _ => d.isWhitespace
       | [] => !isLast)
  | [] => false

/-- One line matches `/^\s*\d+\.\s+/m`. -/
def lineListNumber (isLast : Bool) (l : List Char) : Bool :=
  let s := l.dropWhile (fun c => c.isWhitespace)
  let ds := s.takeWhile (fun c => c.isDigit)
  !ds.isEmpty &&
    (match s.drop ds.length with
     | '.' :: r2 =>
       (match r2 with
        | d :: _ => d.isWhitespace
        | [] => !isLast)
     | _ => false)

/-- One line matches `/^[A-ZА-Я][A-ZА-Я\s]+:?$/m`: an uppercase letter,
at least one more uppercase-or-whitespace character, an optional
trailing colon. -/
def lineHeading (l : List Char) : Bool :=
  match l with
  | c :: rest =>
    isUpperAZ c &&
      (match rest.getLast? with
       | some ':' =>
         !rest.dropLast.isEmpty &&
           rest.dropLast.all (fun d => isUpperAZ d || d.isWhitespace)
       | _ => !rest.isEmpty && rest.all (fun d => isUpperAZ d || d.isWhitespace))
  | [] => false

/-- Model of `DocumentProcessor.inferChunkType`: tab or pipe means
table, a bullet or numbered line means list, an all-caps line means
heading, otherwise text. -/
def inferChunkType (content : String) : String :=
  if jsIncludes content "\t" || jsIncludes content "|" then "table"
  else
    let lines := jsSplitChar '\n' content
    let n := lines.length
    if (lines.enum.any fun p => lineListBullet (p.1 == n - 1) p.2.toList) ||
        (lines.enum.any fun p => lineListNumber (p.1 == n - 1) p.2.toList) then "list"
    else if lines.any (fun l => lineHeading l.toList) then "heading"
    else "text"

/-- Model of `DocumentProcessor.extractSection`: the regex
`/^([A-ZА-Я][^\n]*):?/m` captures the whole first line that starts with
an uppercase letter (the greedy `[^\n]*` swallows any colon). -/
def extractSection (content : String) : Option String :=
  (jsSplitChar '\n' content).find? (fun l =>
    match l.toList.head? with
    | some c => isUpperAZ c
    | none => false)

/-- Model of `DocumentProcessor.containsProductInfo`. -/
def containsProductInfo (content : String) : Bool :=
  ["продукт", "товар", "услуга", "функция", "характеристика"].any
    (fun k => jsIncludes (jsToLower content) k)

/-- A currency token of the pricing regex starts here (the content is
already lower-cased for the `/i` flag). -/
def currencyTokenAt (l : List Char) : Bool :=
  ["руб", "рублей", "₽", "$", "долларов", "usd"].any
    (fun tok => tok.toList.isPrefixOf l)

/-- Model of `DocumentProcessor.containsPricing`: the test
`/\d+\s*(?:руб|рублей|₽|\$|долларов|USD)/i` — somewhere a digit run,
optional whitespace, then a currency token. -/
def containsPricing (content : String) : Bool :=
  (jsToLower content).toList.tails.any (fun t =>
    match t with
    | c :: _ =>
      c.isDigit &&
        currencyTokenAt
          ((t.dropWhile (fun d => d.isDigit)).dropWhile (fun d => d.isWhitespace))
    | [] => false)

/-- Model of `DocumentProcessor.containsCompetitorInfo`. -/
def containsCompetitorInfo (content : String) : Bool :=
  ["конкурент", "сравнение", "альтернатива", "competitor"].any
    (fun k => jsIncludes (jsToLower content) k)

/-- Model of `DocumentProcessor.calculateSalesRelevance`: 0.3 for
product info, 0.4 for pricing, 0.2 for competitor info, 0.1 per matched
sales term, capped at 1.0. -/
def calculateSalesRelevance (content : String) : ℚ :=
  let score : ℚ := 0
  let score := if containsProductInfo content then score + 3/10 else score
  let score := if containsPricing content then score + 4/10 else score
  let score := if containsCompetitorInfo content then score + 2/10 else score
  let score := ["продажи", "клиент", "сделка", "договор", "контракт"].foldl
    (fun s term => if jsIncludes (jsToLower content) term then s + 1/10 else s) score
  jsMin score 1

/-- Model of `DocumentProcessor.createChunk` (the unused `fullText`
parameter of the source is kept).  The id embeds `Date.now()` through
the `now` parameter; `content` is stored trimmed while `endPosition`
uses the untrimmed length, exactly as in the source. -/
def createChunk (now : Nat) (content : String) (index : Nat)
    (startPosition : Int) (_fullText : String) : DocumentChunk :=
  { id := "chunk_" ++ toString index ++ "_" ++ toString now,
    content := jsTrim content,
    startPosition := startPosition,
    endPosition := startPosition + content.length,
    chunkIndex := index,
    chunkType := inferChunkType content,
    sectionLabel := extractSection content,
    pageNumber := startPosition / 2000 + 1,
    containsProductInfo := containsProductInfo content,
    containsPricing := containsPricing content,
    containsCompetitorInfo := containsCompetitorInfo content,
    salesRelevanceScore := calculateSalesRelevance content }

/-- Model of `DocumentProcessor.chunkBySentence`: groups of
`chunkSize` sentences advancing by `chunkSize - overlap`; when the
stride is not positive the source's `for` loop never terminates, which
the model renders as the empty sequence. -/
def chunkBySentence (now : Nat) (text : String)
    (options : ProcessingOptionsM) : List DocumentChunk :=
  let sentences := splitIntoSentences text
  let chunkSize := jsOrNat options.chunkSize 3
  let overlap := jsOrNat options.chunkOverlap 1
  if chunkSize ≤ overlap then []
  else
    let step := chunkSize - overlap
    (List.range ((sentences.length + step - 1) / step)).foldl
      (fun chunks j =>
        let i := j * step
        let content := joinSep " " ((sentences.drop i).take chunkSize)
        if (jsTrim content).length > 0 then
          chunks ++ [createChunk now content chunks.length (i : Int) text]
        else chunks)
      []

/-- Model of `DocumentProcessor.chunkByParagraph`: accumulate
paragraphs until adding the next would exceed the size, then emit,
optionally seeding the next chunk with the trailing `overlap` characters
of the previous one. -/
def chunkByParagraph (now : Nat) (text : String)
    (options : ProcessingOptionsM) : List DocumentChunk :=
  let paragraphs := (splitParagraphs text).filter
    (fun p => decide ((jsTrim p).length > 0))
  let maxChunkSize := jsOrNat options.chunkSize 1000
  let st := paragraphs.foldl
    (fun (st : List DocumentChunk × String × Int) paragraph =>
      let chunks := st.1
      let currentChunk := st.2.1
      let startPosition := st.2.2
      if currentChunk.length + paragraph.length > maxChunkSize ∧
          currentChunk.length > 0 then
        let chunks' := chunks ++
          [createChunk now (jsTrim currentChunk) chunks.length startPosition text]
        let overlap := jsOrNat options.chunkOverlap 0
        let currentChunk' :=
          if 0 < overlap ∧ overlap < currentChunk.length then
            strTakeRight currentChunk overlap ++ "\n\n" ++ paragraph
          else paragraph
        (chunks', currentChunk', jsIndexOf text paragraph)
      else
        let startPosition' :=
          if currentChunk.length = 0 then jsIndexOf text paragraph else startPosition
        (chunks,
         currentChunk ++ (if currentChunk.length > 0 then "\n\n" else "") ++ paragraph,
         startPosition'))
    ([], "", 0)
  if (jsTrim st.2.1).length > 0 then
    st.1 ++ [createChunk now (jsTrim st.2.1) st.1.length st.2.2 text]
  else st.1

/-- Model of `DocumentProcessor.chunkBySection`: split on the section
markers; every nonempty trimmed section becomes a chunk carrying its
`forEach` index. -/
def chunkBySection (now : Nat) (text : String)
    (_options : ProcessingOptionsM) : List DocumentChunk :=
  (regexSplit sectionSepLen sectionSepLen_pos text).enum.filterMap (fun p =>
    let content := jsTrim p.2
    if content.length > 0 then
      some (createChunk now content p.1 (jsIndexOf text content) text)
    else none)

/-- Model of `DocumentProcessor.chunkByFixedSize`: sliding windows of
`chunkSize` characters advancing by `chunkSize - overlap`; as in
`chunkBySentence`, a non-positive stride makes the source loop forever,
rendered here as the empty sequence. -/
def chunkByFixedSize (now : Nat) (text : String)
    (options : ProcessingOptionsM) : List DocumentChunk :=
  let chunkSize := jsOrNat options.chunkSize 1000
  let overlap := jsOrNat options.chunkOverlap 100
  if chunkSize ≤ overlap then []
  else
    let step := chunkSize - overlap
    (List.range ((text.length + step - 1) / step)).foldl
      (fun chunks j =>
        let i := j * step
        let chunk := strSlice text i (i + chunkSize)
        if (jsTrim chunk).length > 0 then
          chunks ++ [createChunk now chunk chunks.length (i : Int) text]
        else chunks)
      []

/-- Model of `DocumentProcessor.chunkBySemantic`: the source logs a
warning and falls back to paragraph chunking. -/
def chunkBySemantic (now : Nat) (text : String)
    (options : ProcessingOptionsM) : List DocumentChunk :=
  chunkByParagraph now text options

/-- Model of `DocumentProcessor.createChunks`: dispatch on the
strategy, defaulting to paragraph chunking. -/
def createChunks (now : Nat) (text : String)
    (options : ProcessingOptionsM) : List DocumentChunk :=
  if options.chunkStrategy = "sentence" then chunkBySentence now text options
  else if options.chunkStrategy = "paragraph" then chunkByParagraph now text options
  else if options.chunkStrategy = "section" then chunkBySection now text options
  else if options.chunkStrategy = "fixed_size" then chunkByFixedSize now text options
  else if options.chunkStrategy = "semantic" then chunkBySemantic now text options
  else chunkByParagraph now text options

/-- Model of `source.text || ''` for a text-type `DocumentSource`. -/
def extractTextSrc (text : Option String) : String := text.getD ""

/-- Model of `DocumentProcessor.generateWarnings`. -/
def generateWarnings (text : String) (chunks : List DocumentChunk) : List String :=
  (if text.length < 100 then
    ["Document is very short, may not provide sufficient context"] else []) ++
  (if chunks.length = 0 then
    ["No chunks were created from the document"] else []) ++
  (if chunks.length > 1000 then
    ["Document created many chunks, consider using larger chunk size"] else [])

/-- Model of `DocumentProcessor.estimateTokens`: `Math.ceil(len / 4)`. -/
def estimateTokens (text : String) : Nat := (text.length + 3) / 4

/-- The caller-visible outcome of `DocumentProcessor.process`, projected
to the fields the claims concern (the wall-clock `processingTime` and
the sales-extraction payload are omitted). -/
structure ProcessResultM where
  success : Bool
  extractedText : Option String
  chunks : Option (List DocumentChunk)
  chunksCreated : Nat
  tokensProcessed : Nat
  errors : Option (List String)
  warnings : Option (List String)
  deriving DecidableEq, Repr

/-- Model of `DocumentProcessor.process` for a text-type source: when
the extracted text is empty after trimming, return an unsuccessful
result with the "No text could be extracted from the document" error and
no chunks; otherwise chunk the text and report success.  Both branches
return normally — neither throws. -/
def process (now : Nat) (sourceText : Option String)
    (options : ProcessingOptionsM) : ProcessResultM :=
  let extractedText := extractTextSrc sourceText
  if (jsTrim extractedText).length = 0 then
    { success := false, extractedText := none, chunks := none, chunksCreated := 0,
      tokensProcessed := 0,
      errors := some ["No text could be extracted from the document"],
      warnings := none }
  else
    let chunks := createChunks now extractedText options
    { success := true, extractedText := some extractedText, chunks := some chunks,
      chunksCreated := chunks.length, tokensProcessed := estimateTokens extractedText,
      errors := none, warnings := some (generateWarnings extractedText chunks) }

/-! ## Claim C8 -/

/-- C8: whenever the extracted text is empty after trimming,
`DocumentProcessor.process` returns (rather than throws) an
unsuccessful result carrying the caller-visible error "No text could be
extracted from the document", with no chunks and zero chunks created. -/
theorem process_empty_text_no_content (now : Nat) (sourceText : Option String)
    (options : ProcessingOptionsM)
    (h : (jsTrim (extractTextSrc sourceText)).length = 0) :
    process now sourceText options =
      { success := false, extractedText := none, chunks := none, chunksCreated := 0,
        tokensProcessed := 0,
        errors := some ["No text could be extracted from the document"],
        warnings := none } := by
  unfold process
  rw [if_pos h]

/-- Witness for C8 on a whitespace-only source text. -/
theorem process_empty_text_no_content_witness :
    (jsTrim (extractTextSrc (some "  \n \t "))).length = 0 ∧
      process 7 (some "  \n \t ") ⟨"paragraph", none, none⟩ =
        { success := false, extractedText := none, chunks := none, chunksCreated := 0,
          tokensProcessed := 0,
          errors := some ["No text could be extracted from the document"],
          warnings := none } :=
  ⟨by decide, process_empty_text_no_content 7 (some "  \n \t ")
    ⟨"paragraph", none, none⟩ (by decide)⟩

/-! ## Claim C9 -/

/-- C9: `chunkBySemantic` is extensionally equal to `chunkByParagraph`
— for every timestamp, input text and options value they produce the
same chunk sequence — and `createChunks` under the `semantic` strategy
produces the same chunks as under the `paragraph` strategy. -/
theorem chunkBySemantic_eq_chunkByParagraph (now : Nat) (text : String)
    (options : ProcessingOptionsM) :
    chunkBySemantic now text options = chunkByParagraph now text options ∧
      createChunks now text { options with chunkStrategy := "semantic" }
        = createChunks now text { options with chunkStrategy := "paragraph" } := by
  constructor
  · rfl
  · rfl
